import Mathlib

/-!
Verification of the HH4b analysis code against its natural-language
specification.

Shallow embedding conventions:
* numpy/awkward floating-point values are modelled as rationals (`ℚ`);
  comparisons against the irrational constant `30 * Real.sqrt (1 + k ^ 2)`
  that arises in the dhh pairing method are encoded by squaring (both sides
  of every such comparison are nonnegative, so this is an equivalence).
* per-event vectorized operations are modelled one event at a time;
* the external 4-vector library (`vector`) is abstracted: a candidate
  pairing carries the two dijet kinematic records and the combined
  centre-of-mass transverse momentum that the library would compute;
* python dictionaries are modelled as association lists.
-/

set_option linter.unusedVariables false

namespace HH4b

/-! ## Physics-object selection (`src/HH4b/processors/objects.py`) -/

/-- Reconstructed muon, with the raw fields read by `good_muons`.
`idFlags` models the dynamic lookup `muons[f"is{selection['id']}"]`:
it maps a field name such as `"isTight"` to the stored boolean flag. -/
structure Muon where
  pt : ℚ
  eta : ℚ
  miniPfRelIso_all : ℚ
  idFlags : String → Bool

/-- A muon selection configuration (`muon_selection`-shaped dict). -/
structure MuonSelection where
  pt : ℚ
  eta : ℚ
  miniPFRelIso_all : ℚ
  id : String

/-- `muon_selection = {"pt": 30, "eta": 2.4, "miniPFRelIso_all": 0.2, "id": "Tight"}`. -/
def muon_selection : MuonSelection :=
  { pt := 30, eta := 12/5, miniPFRelIso_all := 1/5, id := "Tight" }

/-- `good_muons`: keeps muons with `pt >= selection["pt"]`,
`eta <= selection["eta"]` (signed, the source applies no absolute value),
`miniPfRelIso_all <= selection["miniPFRelIso_all"]` and the boolean flag
`muons[f"is{selection['id']}"]`. -/
def good_muons (muons : List Muon) (selection : MuonSelection := muon_selection) :
    List Muon :=
  muons.filter fun m =>
    decide (selection.pt ≤ m.pt) &&
    decide (m.eta ≤ selection.eta) &&
    decide (m.miniPfRelIso_all ≤ selection.miniPFRelIso_all) &&
    m.idFlags ("is" ++ selection.id)

/-- Reconstructed AK8 (fat) jet with the raw fields read by `good_ak8jets`. -/
structure FatJet where
  particleNetMD_Xbb : ℚ
  particleNetMD_QCD : ℚ
  particleNetMD_Xcc : ℚ
  particleNetMD_Xqq : ℚ
  eta : ℚ
  idFlags : String → Bool

/-- AK8 selection configuration. -/
structure Ak8Selection where
  eta : ℚ
  id : String

/-- `ak8_selection = {"eta": 2.5, "id": "Tight"}`. -/
def ak8_selection : Ak8Selection := { eta := 5/2, id := "Tight" }

/-- `Txbb = particleNetMD_Xbb / (particleNetMD_QCD + particleNetMD_Xbb)`. -/
def Txbb (j : FatJet) : ℚ :=
  j.particleNetMD_Xbb / (j.particleNetMD_QCD + j.particleNetMD_Xbb)

/-- `Txjj = (Xbb + Xcc + Xqq) / (Xbb + Xcc + Xqq + QCD)` (particleNetMD scores). -/
def Txjj (j : FatJet) : ℚ :=
  (j.particleNetMD_Xbb + j.particleNetMD_Xcc + j.particleNetMD_Xqq) /
    (j.particleNetMD_Xbb + j.particleNetMD_Xcc + j.particleNetMD_Xqq +
      j.particleNetMD_QCD)

/-- A fat jet after `good_ak8jets` attached the two derived scores as new fields. -/
structure FatJetExt where
  jet : FatJet
  Txbb : ℚ
  Txjj : ℚ

/-- Attaching the derived discriminants (`fatjets["Txbb"] = ...` etc.). -/
def attachScores (j : FatJet) : FatJetExt := ⟨j, Txbb j, Txjj j⟩

/-- `good_ak8jets`: attach `Txbb`/`Txjj`, then keep fat jets with
`abs(eta) < selection["eta"]` and the flag `fatjets[f"is{selection['id']}"]`. -/
def good_ak8jets (fatjets : List FatJet) (selection : Ak8Selection := ak8_selection) :
    List FatJetExt :=
  (fatjets.map attachScores).filter fun fj =>
    decide (|fj.jet.eta| < selection.eta) && fj.jet.idFlags ("is" ++ selection.id)

/-- Muon exhibiting the missing absolute value in the `good_muons` η cut:
`pt = 40`, `eta = -5`, `miniPfRelIso_all = 0.1`, `isTight` set. -/
def forwardMuon : Muon :=
  { pt := 40, eta := -5, miniPfRelIso_all := 1/10,
    idFlags := fun s => s == ("isTight") }

/-- Concrete fat jet with `Xbb = 0.6`, `QCD = 0.3`, `Xcc = 0.05`, `Xqq = 0.05`. -/
def exampleFatJet : FatJet :=
  { particleNetMD_Xbb := 6/10, particleNetMD_QCD := 3/10,
    particleNetMD_Xcc := 1/20, particleNetMD_Xqq := 1/20,
    eta := 0, idFlags := fun _ => true }

/-! ## Matching-studies skimmer (`src/HH4b/processors/matchingSkimmer.py`) -/

/-- `HIGGS_MASS = 125.0`. -/
def HIGGS_MASS : ℚ := 125

/-- `itertools.combinations(l, 2)`: all ordered-position 2-combinations of a
list, in itertools order. -/
def combinations2 {α : Type} : List α → List (α × α)
  | [] => []
  | x :: xs => (xs.map fun y => (x, y)) ++ combinations2 xs

/-- The precomputed lookup table `JET_ASSIGNMENTS[4]`: all 2-combinations of
2-combinations of `range(4)` whose four indices are pairwise distinct
(`len(set(i + j)) == MIN_JETS`). -/
def JET_ASSIGNMENTS4 : List ((ℕ × ℕ) × (ℕ × ℕ)) :=
  (combinations2 (combinations2 (List.range 4))).filter fun pp =>
    decide (([pp.1.1, pp.1.2, pp.2.1, pp.2.2].dedup).length = 4)

/-- Entry of the lookup table selected by the pairing index chosen per event. -/
def assignedPairs (i : Fin 3) : (ℕ × ℕ) × (ℕ × ℕ) :=
  JET_ASSIGNMENTS4.getD i.val ((0, 0), (0, 0))

/-- Kinematics of one dijet (pair of AK4 jets summed by the external
4-vector library). -/
structure Dijet where
  pt : ℚ
  eta : ℚ
  phi : ℚ
  mass : ℚ

/-- Per-event data of one candidate pairing, as supplied by the external
4-vector library: the two dijets (`jj[:, p, 0]`, `jj[:, p, 1]`, whose `mass`
fields are the entries of `mjj`) and the combined transverse momentum of the
two dijets boosted to their own centre-of-mass frame
(`jj[:,:,0].boostCM_of(cm).pt + jj[:,:,1].boostCM_of(cm).pt`). -/
structure Pairing where
  dijet0 : Dijet
  dijet1 : Dijet
  comPt : ℚ

/-- The constant `k = 125 / 120` of the dhh discriminant. -/
def kDhh : ℚ := 125 / 120

/-- Kernel-computable maximum of two rationals. -/
def qmax (a b : ℚ) : ℚ := if a ≤ b then b else a

/-- Kernel-computable minimum of two rationals. -/
def qmin (a b : ℚ) : ℚ := if a ≤ b then a else b

/-- Kernel-computable absolute value (`np.absolute`). -/
def qabs (a : ℚ) : ℚ := if a ≤ 0 then -a else a

/-- Numerator of the dhh discriminant of one pairing:
`|m_high - k * m_low|` where `m_high >= m_low` are the pairing's two dijet
masses sorted descending (`mjj_sorted`).  The code's
`delta_d = |m_high - k*m_low| / sqrt(1 + k^2)` is this value divided by the
fixed positive constant `sqrt(1 + k^2)`; all comparisons between delta_d
values, and against 30, are stated below in terms of this numerator (scaled
comparisons against 30 are encoded by squaring, both sides being
nonnegative). -/
def deltaDNum (p : Pairing) : ℚ :=
  qabs (qmax p.dijet0.mass p.dijet1.mass - kDhh * qmin p.dijet0.mass p.dijet1.mass)

/-- `ak.argmin(f, axis=-1)` over the 3 pairings (first index on ties). -/
def argmin3 (f : Fin 3 → ℚ) : Fin 3 :=
  if f 0 ≤ f 1 then (if f 0 ≤ f 2 then 0 else 2)
  else (if f 1 ≤ f 2 then 1 else 2)

/-- `ak.argmax(f, axis=-1)` over the 3 pairings (first index on ties). -/
def argmax3 (f : Fin 3 → ℚ) : Fin 3 :=
  if f 1 ≤ f 0 then (if f 2 ≤ f 0 then 0 else 2)
  else (if f 2 ≤ f 1 then 1 else 2)

/-- Largest of three values. -/
def hi3 (f : Fin 3 → ℚ) : ℚ := qmax (f 0) (qmax (f 1) (f 2))

/-- Smallest of three values. -/
def lo3 (f : Fin 3 → ℚ) : ℚ := qmin (f 0) (qmin (f 1) (f 2))

/-- Middle of three values. -/
def mid3 (f : Fin 3 → ℚ) : ℚ := f 0 + f 1 + f 2 - hi3 f - lo3 f

/-- The code's `is_dhh_tooclose`: with `d_sorted = ak.sort(delta_d,
ascending=False)` (descending!), it tests `d_sorted[:,0] - d_sorted[:,1] < 30`,
i.e. whether the two LARGEST delta_d values differ by less than 30.
With `n` the delta_d numerators, `(hi - mid)/sqrt(1+k^2) < 30` is equivalent
to `(hi - mid)^2 < 900 * (1 + k^2)` since `hi - mid >= 0`. -/
def is_dhh_tooclose (n : Fin 3 → ℚ) : Bool :=
  decide ((hi3 n - mid3 n) ^ 2 < 900 * (1 + kDhh ^ 2))

/-- The condition as the specification words it: the two SMALLEST delta_d
values among the 3 pairings differ by less than 30 GeV.  Modelled from the
spec for comparison with `is_dhh_tooclose`; same squaring encoding
(`mid - lo >= 0`). -/
def spec_two_smallest_dhh_close (n : Fin 3 → ℚ) : Bool :=
  decide ((mid3 n - lo3 n) ^ 2 < 900 * (1 + kDhh ^ 2))

/-- The pairing index selected by the dhh method:
`ak.where(is_dhh_tooclose, index_max_com_pt, index_mindhh)`. -/
def dhhIndex (P : Fin 3 → Pairing) : Fin 3 :=
  let n := fun i => deltaDNum (P i)
  if is_dhh_tooclose n then argmax3 (fun i => (P i).comPt) else argmin3 n

/-- The chi2 score of one pairing: `sum((mjj - HIGGS_MASS)^2)` over its two
dijet masses. -/
def chi2Score (P : Fin 3 → Pairing) (i : Fin 3) : ℚ :=
  ((P i).dijet0.mass - HIGGS_MASS) ^ 2 + ((P i).dijet1.mass - HIGGS_MASS) ^ 2

/-- The pairing index selected by the chi2 method: `ak.argmin(chi2, axis=-1)`. -/
def chi2Index (P : Fin 3 → Pairing) : Fin 3 := argmin3 (chi2Score P)

/-- A value stored in one output column of `getJetAssignmentVars`: a jet-index
pair, a number, or the ΔR between two dijets (computed by the external
4-vector library from the two recorded dijets). -/
inductive ColVal where
  | pair (p : ℕ × ℕ)
  | q (x : ℚ)
  | dr (a b : Dijet)

/-- The dijet of the chosen pairing's first index pair (pre-reorder). -/
def dhhDijet0 (P : Fin 3 → Pairing) : Dijet := (P (dhhIndex P)).dijet0

/-- The dijet of the chosen pairing's second index pair (pre-reorder). -/
def dhhDijet1 (P : Fin 3 → Pairing) : Dijet := (P (dhhIndex P)).dijet1

/-- First dijet after the `np.argsort(bbs_jjpt)[:, ::-1]` reordering: the
reversed stable ascending argsort of `[pt0, pt1]` puts pair 1 first exactly
when `pt0 <= pt1` (ties included). -/
def dhhSorted0 (P : Fin 3 → Pairing) : Dijet :=
  if (dhhDijet0 P).pt ≤ (dhhDijet1 P).pt then dhhDijet1 P else dhhDijet0 P

/-- Second dijet after the pT reordering. -/
def dhhSorted1 (P : Fin 3 → Pairing) : Dijet :=
  if (dhhDijet0 P).pt ≤ (dhhDijet1 P).pt then dhhDijet0 P else dhhDijet1 P

/-- The dictionary returned by `getJetAssignmentVars(..., method="dhh")`:
`ak4Pair0`/`ak4Pair1` hold the chosen assignment's index pairs in lookup-table
(pre-reorder) order, while the dijet kinematic columns are taken from the
pT-reordered dijets. -/
def dhhOutput (P : Fin 3 → Pairing) : List (String × ColVal) :=
  [(("ak4Pair0"), ColVal.pair (assignedPairs (dhhIndex P)).1),
   (("ak4Pair1"), ColVal.pair (assignedPairs (dhhIndex P)).2),
   (("ak4DijetPt0"), ColVal.q (dhhSorted0 P).pt),
   (("ak4DijetEta0"), ColVal.q (dhhSorted0 P).eta),
   (("ak4DijetPhi0"), ColVal.q (dhhSorted0 P).phi),
   (("ak4DijetMass0"), ColVal.q (dhhSorted0 P).mass),
   (("ak4DijetPt1"), ColVal.q (dhhSorted1 P).pt),
   (("ak4DijetEta1"), ColVal.q (dhhSorted1 P).eta),
   (("ak4DijetPhi1"), ColVal.q (dhhSorted1 P).phi),
   (("ak4DijetMass1"), ColVal.q (dhhSorted1 P).mass),
   (("ak4DijetDeltaR"), ColVal.dr (dhhSorted0 P) (dhhSorted1 P))]

/-- The dictionary returned by `getJetAssignmentVars(..., method="chi2")`:
only the two index-pair columns. -/
def chi2Output (P : Fin 3 → Pairing) : List (String × ColVal) :=
  [(("ak4Pair0chi2"), ColVal.pair (assignedPairs (chi2Index P)).1),
   (("ak4Pair1chi2"), ColVal.pair (assignedPairs (chi2Index P)).2)]

/-- An assignment entry consists of two disjoint index pairs that together
cover exactly the four jet indices `{0, 1, 2, 3}`. -/
def pairsDisjointCoverFour (e : (ℕ × ℕ) × (ℕ × ℕ)) : Prop :=
  ({e.1.1, e.1.2} : Finset ℕ) ∩ ({e.2.1, e.2.2} : Finset ℕ) = ∅ ∧
  ({e.1.1, e.1.2} : Finset ℕ) ∪ ({e.2.1, e.2.2} : Finset ℕ) = ({0, 1, 2, 3} : Finset ℕ)

instance (e : (ℕ × ℕ) × (ℕ × ℕ)) : Decidable (pairsDisjointCoverFour e) := by
  unfold pairsDisjointCoverFour
  infer_instance

/-- Event exhibiting the descending sort in `is_dhh_tooclose`: the three
pairings have dijet masses `(125, 120)`, `(100, 0)`, `(110, 0)` (delta_d
numerators `0`, `100`, `110`) and CoM-frame pT sums `0`, `0`, `1`. -/
def dhhBugEvent : Fin 3 → Pairing := fun i =>
  if i.val = 0 then { dijet0 := ⟨50, 0, 0, 125⟩, dijet1 := ⟨40, 0, 0, 120⟩, comPt := 0 }
  else if i.val = 1 then { dijet0 := ⟨50, 0, 0, 100⟩, dijet1 := ⟨40, 0, 0, 0⟩, comPt := 0 }
  else { dijet0 := ⟨50, 0, 0, 110⟩, dijet1 := ⟨40, 0, 0, 0⟩, comPt := 1 }

/-! ## Skimmer weight/dispatch logic (`matchingSkimmer.process`) -/

/-- `needle in haystack` for python strings. -/
def containsSub (needle haystack : String) : Bool :=
  decide (needle.toList <:+: haystack.toList)

/-- The keys of `gen_selection_dict` (its one entry routes to
`gen_selection_HHbbbb`). -/
def gen_selection_keys : List String := [("GluGlutoHHto4B")]

/-- `isSignal = "HHTobbbb" in dataset`. -/
def isSignalDataset (dataset : String) : Bool := containsSub ("HHTobbbb") dataset

/-- How `process` uses the per-event generator weights. -/
inductive WeightMode where
  | signOnly
  | raw
  | data
  deriving DecidableEq

/-- The generator-weight rule of `process`: sign-only for `isSignal` chunks,
raw `genWeight` for other simulation, none for data. -/
def weightMode (isData : Bool) (dataset : String) : WeightMode :=
  if isSignalDataset dataset then .signOnly
  else if !isData then .raw
  else .data

/-- Whether `process` dispatches a gen-level truth-matching routine:
`for d in gen_selection_dict: if d in dataset`. -/
def runsGenSelection (dataset : String) : Bool :=
  gen_selection_keys.any fun d => containsSub d dataset

/-! ## BDT driver (`src/HH4b/boosted/TrainBDT.py`) -/

/-- One row of `_get_bdt_scores`' multiclass multi-signal branch:
`bg_tot = np.sum(preds[:, len(sig_keys):], axis=1)` and
`preds[:, :len(sig_keys)] / (preds[:, :len(sig_keys)] + bg_tot)`. -/
def bdtScoreRow (nsig : ℕ) (row : List ℚ) : List ℚ :=
  let bg_tot := (row.drop nsig).sum
  (row.take nsig).map fun p => p / (p + bg_tot)

/-- `_get_bdt_scores(preds, sig_keys, multiclass)` with `nsig = len(sig_keys)`:
binary mode returns `preds[:, 1:]`, multiclass single-signal returns
`preds[:, :1]`, multiclass multi-signal renormalizes each signal column
against the summed background columns. -/
def _get_bdt_scores (preds : List (List ℚ)) (nsig : ℕ) (multiclass : Bool) :
    List (List ℚ) :=
  if !multiclass then preds.map fun r => r.drop 1
  else if nsig = 1 then preds.map fun r => r.take 1
  else preds.map (bdtScoreRow nsig)

/-- `preprocess_data` line 150: `weights_bdt[key] = np.abs(... "finalWeight" ...)`
— sign-stripped per-event weights of one sample. -/
def weights_bdt (raw : List ℚ) : List ℚ := raw.map fun w => |w|

/-- `bkg_total = np.sum([np.sum(weights_bdt[key]) for key in args.bg_keys])`. -/
def bkg_total (bgs : List (List ℚ)) : ℚ :=
  (bgs.map fun raw => (weights_bdt raw).sum).sum

/-- The equalized weights of one signal sample:
`weights_bdt[sig_key] * (bkg_total / sig_total) / num_sigs` with
`sig_total = np.sum(weights_bdt[sig_key])`. -/
def equalize_sig_weights (rawSig : List ℚ) (bkgT : ℚ) (numSigs : ℕ) : List ℚ :=
  (weights_bdt rawSig).map fun w =>
    w * (bkgT / (weights_bdt rawSig).sum) / (numSigs : ℚ)

/-- The `equalize_weights` block of `preprocess_data`: each signal sample's
weights are rescaled by `(bkg_total / sig_total) / num_sigs`, each background
sample keeps its sign-stripped weights. -/
def equalize_weights_step (sigs bgs : List (List ℚ)) :
    List (List ℚ) × List (List ℚ) :=
  (sigs.map fun s => equalize_sig_weights s (bkg_total bgs) sigs.length,
   bgs.map weights_bdt)

/-! ## Run-configuration utilities (`src/run_utils.py`) -/

/-- The fixed redirector URL prepended to every file path. -/
def redirector : String := "root://cmsxrootd.fnal.gov//"

/-- The nested fileset index `{year: {sample: {subsample: [file, ...]}}}`,
modelled as association lists. -/
abbrev NanoIndex := List (String × List (String × List (String × List String)))

/-- `fnames[starti:] if endi < 0 else fnames[starti:endi]` (python slice with
`0 <= starti` and, in the second branch, `0 <= endi`). -/
def sliceFiles (starti : ℕ) (endi : ℤ) (fnames : List String) : List String :=
  if endi < 0 then fnames.drop starti else (fnames.take endi.toNat).drop starti

/-- The per-sample body of `get_fileset`'s `get_num_files == False` branch:
restrict to the requested subsamples when the intersection is nonempty, then
map each subsample to `(f"{year}_{subsample}", [redirector + f, ...])` with
the file list sliced.  python iterates the intersection as a hash set; the
model keeps the index order, which the claims do not distinguish. -/
def processSample (year : String) (subsamples : List String) (starti : ℕ)
    (endi : ℤ) (sample_set : List (String × List String)) :
    List (String × List String) :=
  let get_subsamples := sample_set.filter fun p => subsamples.contains p.1
  let sel := if get_subsamples.length ≠ 0 then get_subsamples else sample_set
  sel.map fun p =>
    (year ++ "_" ++ p.1, (sliceFiles starti endi p.2).map fun f => redirector ++ f)

/-- The loop of `get_fileset` over the requested samples; a missing year or
sample key raises (`KeyError`), modelled as `Except.error`.  The python
`fileset = {**fileset, **sample_fileset}` merge is modelled as append
(subsample keys are distinct across samples in the index). -/
def filesetLoop (year : String) (index : NanoIndex) (subsamples : List String)
    (starti : ℕ) (endi : ℤ) : List String → Except String (List (String × List String))
  | [] => .ok []
  | sample :: rest =>
    match index.lookup year with
    | none => .error year
    | some ys =>
      match ys.lookup sample with
      | none => .error sample
      | some sample_set => do
        let restSet ← filesetLoop year index subsamples starti endi rest
        .ok (processSample year subsamples starti endi sample_set ++ restSet)

/-- `get_fileset` (the `get_num_files == False` branch): replaces the samples
by `["Muon"]` for the `"trigger_boosted"` processor, then resolves each
sample from the index. -/
def get_fileset (processor : String) (year : String) (index : NanoIndex)
    (samples subsamples : List String) (starti : ℕ) (endi : ℤ) :
    Except String (List (String × List String)) :=
  let samples := if processor == ("trigger_boosted") then [("Muon")] else samples
  filesetLoop year index subsamples starti endi samples

/-- Concrete fileset index `{"2022": {"QCD": {"HT100": ["a.root", "b.root"]}}}`. -/
def exampleIndex : NanoIndex :=
  [(("2022"), [(("QCD"), [(("HT100"), [("a.root"), ("b.root")])])])]

/-! ## Helper lemmas -/

theorem argmin3_le (f : Fin 3 → ℚ) (j : Fin 3) : f (argmin3 f) ≤ f j := by
  unfold argmin3
  split_ifs with h1 h2 h3 <;> fin_cases j <;> simp_all <;> linarith

theorem argmax3_ge (f : Fin 3 → ℚ) (j : Fin 3) : f j ≤ f (argmax3 f) := by
  unfold argmax3
  split_ifs with h1 h2 h3 <;> fin_cases j <;> simp_all <;> linarith

theorem coverFour_assignedPairs (i : Fin 3) :
    pairsDisjointCoverFour (assignedPairs i) := by
  fin_cases i <;> decide

/-! ## Claim theorems -/

/-- C4: the lookup table `JET_ASSIGNMENTS[4]` has exactly 3 distinct entries,
each consisting of two disjoint index pairs covering exactly `{0, 1, 2, 3}`;
consequently the assignment selected by either pairing method (the table
entry at the chosen index) consists of two disjoint pairs covering exactly
the 4 jet indices. -/
theorem c4_jet_assignments_invariant :
    JET_ASSIGNMENTS4.length = 3 ∧ JET_ASSIGNMENTS4.Nodup ∧
    (∀ e ∈ JET_ASSIGNMENTS4, pairsDisjointCoverFour e) ∧
    (∀ P : Fin 3 → Pairing,
      pairsDisjointCoverFour (assignedPairs (dhhIndex P)) ∧
      pairsDisjointCoverFour (assignedPairs (chi2Index P))) := by
  refine ⟨by decide, by decide, by decide, fun P => ?_⟩
  exact ⟨coverFour_assignedPairs _, coverFour_assignedPairs _⟩

/-- C4 witness: the first table entry `((0,1),(2,3))` satisfies the
disjoint-cover invariant. -/
theorem c4_jet_assignments_invariant_witness :
    pairsDisjointCoverFour ((0, 1), (2, 3)) :=
  c4_jet_assignments_invariant.2.2.1 ((0, 1), (2, 3)) (by decide)

/-- C6: the chi2 method selects a pairing minimizing
`(m0 - 125)^2 + (m1 - 125)^2` over the 3 pairings, and its output dictionary
holds exactly the two index-pair columns `ak4Pair0chi2`, `ak4Pair1chi2`
mapping to the selected assignment's pairs. -/
theorem c6_chi2_method (P : Fin 3 → Pairing) :
    (∀ j : Fin 3, chi2Score P (chi2Index P) ≤ chi2Score P j) ∧
    (chi2Output P).map Prod.fst = [("ak4Pair0chi2"), ("ak4Pair1chi2")] ∧
    (chi2Output P).lookup ("ak4Pair0chi2") =
      some (ColVal.pair (assignedPairs (chi2Index P)).1) ∧
    (chi2Output P).lookup ("ak4Pair1chi2") =
      some (ColVal.pair (assignedPairs (chi2Index P)).2) :=
  ⟨fun j => argmin3_le (chi2Score P) j, rfl, rfl, rfl⟩

/-- C5: in the dhh output the dijet kinematic columns are pT-ordered
(`ak4DijetPt0 >= ak4DijetPt1`), while `ak4Pair0`/`ak4Pair1` hold the chosen
assignment's index pairs in lookup-table (pre-reorder) order. -/
theorem c5_dhh_output_ordering (P : Fin 3 → Pairing) :
    (dhhOutput P).lookup ("ak4DijetPt0") = some (ColVal.q (dhhSorted0 P).pt) ∧
    (dhhOutput P).lookup ("ak4DijetPt1") = some (ColVal.q (dhhSorted1 P).pt) ∧
    (dhhSorted1 P).pt ≤ (dhhSorted0 P).pt ∧
    (dhhOutput P).lookup ("ak4Pair0") =
      some (ColVal.pair (assignedPairs (dhhIndex P)).1) ∧
    (dhhOutput P).lookup ("ak4Pair1") =
      some (ColVal.pair (assignedPairs (dhhIndex P)).2) := by
  refine ⟨rfl, rfl, ?_, rfl, rfl⟩
  unfold dhhSorted0 dhhSorted1
  split_ifs with h <;> linarith

/-- C1: at `dhhBugEvent` the delta_d numerators are `(0, 100, 110)`: the two
smallest delta_d values differ by far more than 30 GeV, so the claim selects
the delta_d-minimizing pairing 0; but the code sorts delta_d descending, so
`is_dhh_tooclose` compares the two LARGEST values (difference below
30·sqrt(1+k²)) and the code instead selects the CoM-pT tie-break winner,
pairing 2. -/
theorem c1_dhh_tooclose_compares_largest :
    dhhIndex dhhBugEvent = 2 ∧
    argmin3 (fun i => deltaDNum (dhhBugEvent i)) = 0 ∧
    spec_two_smallest_dhh_close (fun i => deltaDNum (dhhBugEvent i)) = false ∧
    is_dhh_tooclose (fun i => deltaDNum (dhhBugEvent i)) = true := by
  have h0 : deltaDNum (dhhBugEvent 0) = 0 := by
    norm_num [deltaDNum, dhhBugEvent, qabs, qmax, qmin, kDhh]
  have h1 : deltaDNum (dhhBugEvent 1) = 100 := by
    norm_num [deltaDNum, dhhBugEvent, qabs, qmax, qmin, kDhh]
  have h2 : deltaDNum (dhhBugEvent 2) = 110 := by
    norm_num [deltaDNum, dhhBugEvent, qabs, qmax, qmin, kDhh]
  have htoo : is_dhh_tooclose (fun i => deltaDNum (dhhBugEvent i)) = true := by
    simp only [is_dhh_tooclose, mid3, hi3, lo3, decide_eq_true_eq]
    rw [h0, h1, h2]
    norm_num [qmax, qmin, kDhh]
  have hspec : spec_two_smallest_dhh_close (fun i => deltaDNum (dhhBugEvent i)) = false := by
    simp only [spec_two_smallest_dhh_close, mid3, hi3, lo3, decide_eq_false_iff_not]
    rw [h0, h1, h2]
    norm_num [qmax, qmin, kDhh]
  have hmin : argmin3 (fun i => deltaDNum (dhhBugEvent i)) = 0 := by
    simp only [argmin3, h0, h1, h2]
    norm_num
  have hcom : argmax3 (fun i => (dhhBugEvent i).comPt) = 2 := by
    have e0 : (dhhBugEvent 0).comPt = 0 := rfl
    have e1 : (dhhBugEvent 1).comPt = 0 := rfl
    have e2 : (dhhBugEvent 2).comPt = 1 := rfl
    simp only [argmax3, e0, e1, e2]
    norm_num
  have hIdx : dhhIndex dhhBugEvent = 2 := by
    simp only [dhhIndex]
    rw [htoo]
    simpa using hcom
  exact ⟨hIdx, hmin, hspec, htoo⟩

/-- C2: `good_muons` checks the signed pseudorapidity `eta <= 2.4` with no
absolute value (unlike the jet selections in the same module), so the muon
`forwardMuon` with `eta = -5` — which fails the claimed `|eta| <= 2.4`
requirement while passing all other cuts — is returned. -/
theorem c2_good_muons_signed_eta :
    good_muons [forwardMuon] = [forwardMuon] ∧
    ¬(|forwardMuon.eta| ≤ muon_selection.eta) := by
  constructor
  · norm_num [good_muons, forwardMuon, muon_selection, List.filter]
    rfl
  · norm_num [forwardMuon, muon_selection]

/-- C7: `good_ak8jets` returns a subset of the input with the two ratio
scores attached, every returned jet passing the |η| bound and the
identification flag; the scores lie in `[0, 1]` whenever the raw scores are
nonnegative with nonzero denominators, and at the literal scores
`Xbb=0.6, QCD=0.3, Xcc=0.05, Xqq=0.05` they equal `0.6/0.9` and `0.7/1.0`. -/
theorem c7_good_ak8jets_scores :
    (∀ (fatjets : List FatJet) (sel : Ak8Selection) (fj : FatJetExt),
        fj ∈ good_ak8jets fatjets sel →
        fj.Txbb = Txbb fj.jet ∧ fj.Txjj = Txjj fj.jet ∧
        |fj.jet.eta| < sel.eta ∧ fj.jet.idFlags ("is" ++ sel.id) = true ∧
        fj.jet ∈ fatjets) ∧
    (∀ j : FatJet, 0 ≤ j.particleNetMD_Xbb → 0 ≤ j.particleNetMD_QCD →
        0 ≤ j.particleNetMD_Xcc → 0 ≤ j.particleNetMD_Xqq →
        j.particleNetMD_QCD + j.particleNetMD_Xbb ≠ 0 →
        j.particleNetMD_Xbb + j.particleNetMD_Xcc + j.particleNetMD_Xqq +
          j.particleNetMD_QCD ≠ 0 →
        (0 ≤ Txbb j ∧ Txbb j ≤ 1) ∧ (0 ≤ Txjj j ∧ Txjj j ≤ 1)) ∧
    (Txbb exampleFatJet = (6/10) / (9/10) ∧ Txjj exampleFatJet = (7/10) / 1) := by
  refine ⟨?_, ?_, ?_⟩
  · intro fatjets sel fj hmem
    rcases List.mem_filter.mp hmem with ⟨hmap, hpred⟩
    rcases List.mem_map.mp hmap with ⟨j0, hj0, rfl⟩
    rw [Bool.and_eq_true] at hpred
    rcases hpred with ⟨hb1, hb2⟩
    exact ⟨rfl, rfl, of_decide_eq_true hb1, hb2, hj0⟩
  · intro j hXbb hQCD hXcc hXqq hd1 hd2
    have hq1 : 0 < j.particleNetMD_QCD + j.particleNetMD_Xbb :=
      lt_of_le_of_ne (by linarith) (Ne.symm hd1)
    have hq2 : 0 < j.particleNetMD_Xbb + j.particleNetMD_Xcc + j.particleNetMD_Xqq +
        j.particleNetMD_QCD :=
      lt_of_le_of_ne (by linarith) (Ne.symm hd2)
    constructor
    · refine ⟨div_nonneg hXbb (le_of_lt hq1), (div_le_one hq1).mpr ?_⟩
      linarith
    · refine ⟨div_nonneg (by linarith) (le_of_lt hq2), (div_le_one hq2).mpr ?_⟩
      linarith
  · constructor <;> norm_num [Txbb, Txjj, exampleFatJet]

/-- C7 witness: at the literal example jet, both scores are in `[0, 1]`. -/
theorem c7_good_ak8jets_scores_witness :
    (0 ≤ Txbb exampleFatJet ∧ Txbb exampleFatJet ≤ 1) ∧
    (0 ≤ Txjj exampleFatJet ∧ Txjj exampleFatJet ≤ 1) :=
  c7_good_ak8jets_scores.2.1 exampleFatJet (by norm_num [exampleFatJet])
    (by norm_num [exampleFatJet]) (by norm_num [exampleFatJet])
    (by norm_num [exampleFatJet]) (by norm_num [exampleFatJet])
    (by norm_num [exampleFatJet])

/-- C10: the sign-only generator-weight rule fires exactly for dataset names
containing `"HHTobbbb"`, the gen-level truth-matching dispatch fires exactly
for names containing `"GluGlutoHHto4B"`; hence a simulated dataset containing
`"GluGlutoHHto4B"` but not `"HHTobbbb"` runs truth matching with raw
(not sign-only) generator weights. -/
theorem c10_gen_dispatch_vs_sign_weights (dataset : String) :
    (∀ isData : Bool,
      weightMode isData dataset = .signOnly ↔
        containsSub ("HHTobbbb") dataset = true) ∧
    (runsGenSelection dataset = true ↔
      containsSub ("GluGlutoHHto4B") dataset = true) ∧
    (containsSub ("GluGlutoHHto4B") dataset = true →
      containsSub ("HHTobbbb") dataset = false →
      runsGenSelection dataset = true ∧ weightMode false dataset = .raw) := by
  refine ⟨fun isData => ?_, ?_, fun hg hns => ?_⟩
  · by_cases h : containsSub ("HHTobbbb") dataset = true
    · simp [weightMode, isSignalDataset, h]
    · cases isData <;> simp [weightMode, isSignalDataset, h]
  · simp [runsGenSelection, gen_selection_keys]
  · constructor
    · simp [runsGenSelection, gen_selection_keys, hg]
    · simp [weightMode, isSignalDataset, hns]

/-- C10 witness: the dataset `"GluGlutoHHto4B_cHHH1"` dispatches truth
matching and uses raw generator weights. -/
theorem c10_gen_dispatch_vs_sign_weights_witness :
    runsGenSelection ("GluGlutoHHto4B_cHHH1") = true ∧
    weightMode false ("GluGlutoHHto4B_cHHH1") = .raw :=
  (c10_gen_dispatch_vs_sign_weights ("GluGlutoHHto4B_cHHH1")).2.2
    (by decide) (by decide)

theorem getD_map_rat (f : ℚ → ℚ) :
    ∀ (l : List ℚ) (i : ℕ), i < l.length → (l.map f).getD i 0 = f (l.getD i 0)
  | [], i, h => absurd h (by simp)
  | a :: l, 0, _ => rfl
  | a :: l, i + 1, h => getD_map_rat f l i (by simpa using h)

theorem getD_take_lt (d : ℚ) :
    ∀ (l : List ℚ) (n i : ℕ), i < n → (l.take n).getD i d = l.getD i d
  | [], n, i, _ => by simp
  | a :: l, 0, i, h => absurd h (by omega)
  | a :: l, n + 1, 0, _ => rfl
  | a :: l, n + 1, i + 1, h => by
      simpa using getD_take_lt d l n i (by omega)

theorem getD_mem_of_lt :
    ∀ (l : List ℚ) (i : ℕ), i < l.length → l.getD i 0 ∈ l
  | [], i, h => absurd h (by simp)
  | a :: l, 0, _ => List.mem_cons_self a l
  | a :: l, i + 1, h => List.mem_cons_of_mem a (getD_mem_of_lt l i (by simpa using h))

/-- C3: `_get_bdt_scores` returns the second column unchanged in binary mode
(two-column probability matrix), the first column unchanged in multiclass
single-signal mode, and in multiclass multi-signal mode the `i`-th signal
score `p_i / (p_i + Σ background probabilities)`, which lies in `[0, 1]` for
nonnegative probabilities with nonzero denominator. -/
theorem c3_get_bdt_scores (preds : List (List ℚ)) (nsig : ℕ) :
    (_get_bdt_scores preds nsig false = preds.map fun r => r.drop 1) ∧
    (∀ a b : ℚ, List.drop 1 [a, b] = [b]) ∧
    (_get_bdt_scores preds 1 true = preds.map fun r => r.take 1) ∧
    (∀ (a : ℚ) (l : List ℚ), List.take 1 (a :: l) = [a]) ∧
    (nsig ≠ 1 → _get_bdt_scores preds nsig true = preds.map (bdtScoreRow nsig)) ∧
    (∀ (row : List ℚ) (i : ℕ), i < nsig → i < row.length →
      (∀ x ∈ row, 0 ≤ x) →
      0 < row.getD i 0 + (row.drop nsig).sum →
      (bdtScoreRow nsig row).getD i 0 =
        row.getD i 0 / (row.getD i 0 + (row.drop nsig).sum) ∧
      0 ≤ (bdtScoreRow nsig row).getD i 0 ∧
      (bdtScoreRow nsig row).getD i 0 ≤ 1) := by
  refine ⟨rfl, fun a b => rfl, rfl, fun a l => rfl, fun h => by simp [_get_bdt_scores, h], ?_⟩
  intro row i hin hil hnn hpos
  have hbd : (bdtScoreRow nsig row).getD i 0 =
      row.getD i 0 / (row.getD i 0 + (row.drop nsig).sum) := by
    simp only [bdtScoreRow]
    have h1 : i < (row.take nsig).length := by
      simp only [List.length_take]
      omega
    rw [getD_map_rat _ _ _ h1, getD_take_lt _ _ _ _ hin]
  have hp : 0 ≤ row.getD i 0 := hnn _ (getD_mem_of_lt row i hil)
  have hbg : 0 ≤ (row.drop nsig).sum :=
    List.sum_nonneg fun x hx => hnn x (List.drop_subset _ _ hx)
  refine ⟨hbd, ?_, ?_⟩
  · rw [hbd]
    exact div_nonneg hp (le_of_lt hpos)
  · rw [hbd]
    apply (div_le_one hpos).mpr
    linarith

/-- C3 witness: at the 4-class row `[1/2, 1/4, 1/8, 1/8]` with 2 signal
classes, the first signal score is `(1/2)/((1/2)+(1/4))` and lies in `[0,1]`. -/
theorem c3_get_bdt_scores_witness :
    (bdtScoreRow 2 [(1:ℚ)/2, 1/4, 1/8, 1/8]).getD 0 0 =
      ([(1:ℚ)/2, 1/4, 1/8, 1/8].getD 0 0) /
        (([(1:ℚ)/2, 1/4, 1/8, 1/8].getD 0 0) + ([(1:ℚ)/2, 1/4, 1/8, 1/8].drop 2).sum) ∧
    0 ≤ (bdtScoreRow 2 [(1:ℚ)/2, 1/4, 1/8, 1/8]).getD 0 0 ∧
    (bdtScoreRow 2 [(1:ℚ)/2, 1/4, 1/8, 1/8]).getD 0 0 ≤ 1 :=
  (c3_get_bdt_scores [] 2).2.2.2.2.2 [(1:ℚ)/2, 1/4, 1/8, 1/8] 0
    (by norm_num) (by norm_num)
    (by intro x hx; fin_cases hx <;> norm_num)
    (by norm_num)

theorem sum_map_mul_const (l : List ℚ) (c : ℚ) :
    (l.map fun w => w * c).sum = l.sum * c := by
  induction l with
  | nil => simp
  | cons a l ih => simp [ih, add_mul]

/-- C8: with weight equalization enabled, each signal sample's summed weight
becomes exactly (total background weight) / (number of signal samples), while
background samples keep their sign-stripped weights. -/
theorem c8_equalize_weights (sigs bgs : List (List ℚ)) (s : List ℚ)
    (hs : s ∈ sigs) (hsum : (weights_bdt s).sum ≠ 0) :
    (equalize_sig_weights s (bkg_total bgs) sigs.length).sum =
      bkg_total bgs / (sigs.length : ℚ) ∧
    equalize_sig_weights s (bkg_total bgs) sigs.length ∈
      (equalize_weights_step sigs bgs).1 ∧
    (equalize_weights_step sigs bgs).2 = bgs.map fun raw => raw.map fun w => |w| := by
  have hn : (sigs.length : ℚ) ≠ 0 := by
    have hpos : 0 < sigs.length := List.length_pos.mpr (List.ne_nil_of_mem hs)
    exact_mod_cast Nat.pos_iff_ne_zero.mp hpos
  refine ⟨?_, List.mem_map_of_mem _ hs, rfl⟩
  simp only [equalize_sig_weights]
  rw [show (fun w : ℚ => w * (bkg_total bgs / (weights_bdt s).sum) / (sigs.length : ℚ)) =
      (fun w : ℚ => w * ((bkg_total bgs / (weights_bdt s).sum) / (sigs.length : ℚ)))
    from funext fun w => mul_div_assoc _ _ _]
  rw [sum_map_mul_const]
  field_simp
  ring

/-- C8 witness: two signals with raw weight sums 10 and 30 and background
total 80 each end up with summed weight `80 / 2 = 40`. -/
theorem c8_equalize_weights_witness :
    (equalize_sig_weights [(10:ℚ)] (bkg_total [[(80:ℚ)]])
      ([[(10:ℚ)], [(30:ℚ)]].length)).sum = 40 := by
  have h := c8_equalize_weights [[(10:ℚ)], [(30:ℚ)]] [[(80:ℚ)]] [(10:ℚ)]
    (by simp) (by norm_num [weights_bdt])
  rw [h.1]
  norm_num [bkg_total, weights_bdt]

/-- C9: `get_fileset` (with `get_num_files` false) maps each selected
subsample to its file list sliced by `[starti:endi)` — where `endi < 0`
means "to the end" — with each path prefixed by the redirector, under the
key `"<year>_<subsample>"`; and for the `"trigger_boosted"` processor the
caller's sample list is ignored and replaced by `["Muon"]`. -/
theorem c9_get_fileset_resolution (year sample sub : String) (index : NanoIndex)
    (ys : List (String × List (String × List String)))
    (sset : List (String × List String)) (fnames : List String)
    (subsamples : List String) (starti : ℕ) (endi : ℤ)
    (hy : index.lookup year = some ys) (hsamp : ys.lookup sample = some sset)
    (hmem : (sub, fnames) ∈ sset)
    (hsel : subsamples = [] ∨ sub ∈ subsamples) :
    (∃ r, get_fileset ("skimmer") year index [sample] subsamples starti endi = .ok r ∧
      (year ++ "_" ++ sub,
        (sliceFiles starti endi fnames).map fun f => redirector ++ f) ∈ r) ∧
    (endi < 0 → sliceFiles starti endi fnames = fnames.drop starti) ∧
    (∀ samples : List String,
      get_fileset ("trigger_boosted") year index samples subsamples starti endi =
        get_fileset ("trigger_boosted") year index [("Muon")] subsamples starti endi) := by
  refine ⟨?_, fun h => by simp [sliceFiles, h], fun samples => rfl⟩
  refine ⟨processSample year subsamples starti endi sset ++ [], ?_, ?_⟩
  · show filesetLoop year index subsamples starti endi [sample] = _
    simp only [filesetLoop, hy, hsamp]
    rfl
  · rw [List.append_nil]
    have hmem' : (sub, fnames) ∈
        (if (sset.filter fun p => subsamples.contains p.1).length ≠ 0 then
          sset.filter fun p => subsamples.contains p.1
        else sset) := by
      rcases hsel with hnil | hin
      · subst hnil
        simpa using hmem
      · have hkeep : (sub, fnames) ∈ sset.filter fun p => subsamples.contains p.1 :=
          List.mem_filter.mpr ⟨hmem, List.elem_eq_true_of_mem hin⟩
        have hne : (sset.filter fun p => subsamples.contains p.1).length ≠ 0 := by
          have := List.length_pos.mpr (List.ne_nil_of_mem hkeep)
          omega
        simp only [if_pos hne]
        exact hkeep
    exact List.mem_map_of_mem _ hmem'

/-- C9 witness: on the index `{"2022": {"QCD": {"HT100": ["a.root","b.root"]}}}`
with `samples = ["QCD"]`, `subsamples = []`, the result holds the two
prefixed paths under the key `"2022_HT100"`. -/
theorem c9_get_fileset_resolution_witness :
    ∃ r, get_fileset ("skimmer") ("2022") exampleIndex [("QCD")] [] 0 (-1) = .ok r ∧
      (("2022_HT100"),
        [("root://cmsxrootd.fnal.gov//a.root"),
         ("root://cmsxrootd.fnal.gov//b.root")]) ∈ r :=
  (c9_get_fileset_resolution ("2022") ("QCD") ("HT100") exampleIndex
    [(("QCD"), [(("HT100"), [("a.root"), ("b.root")])])]
    [(("HT100"), [("a.root"), ("b.root")])] [("a.root"), ("b.root")]
    [] 0 (-1) rfl rfl (by simp) (Or.inl rfl)).1

end HH4b
